import Mathlib

/-! Shallow embedding of the persistent-replay-buffer SGLD sampler of
uncertainty_est/models/JEM/jem.py (class JEM: the buffer setup in the
constructor, sample_p_0 and sample_q).  Float tensors are embedded as lists
of Val, where Val is Option of an integer: some q is a finite float and
none stands for a non-finite float (NaN or an infinity), which every
arithmetic operation absorbs.  Randomness (torch.randint, torch.rand,
init_random, torch.randn_like) is embedded as explicit input streams, and
the autograd gradient of the energy with respect to the positions is an
oracle parameter.  Because the non-contrastive energy is summed over the
batch, the gradient of the sum with respect to position j is the gradient
of the per-example score at position j alone, so the oracle for that
branch is a per-example function mapped over the batch.  A gradient oracle
returning Option.none models a scoring or autograd call that raises. -/

namespace EBMOOD

/-- One scalar of a float tensor; none is a non-finite value (NaN or Inf). -/
abbrev Val := Option ℤ

/-- One sample, flattened to a list of scalars. -/
abbrev Sample := List Val

/-- A batch of samples. -/
abbrev Batch := List Sample

/-- Addition with non-finite absorption: any non-finite operand poisons the
result, as Inf and NaN do in IEEE arithmetic. -/
def vAdd : Val → Val → Val
  | some a, some b => some (a + b)
  | _, _ => none

/-- Multiplication with non-finite absorption. -/
def vMul : Val → Val → Val
  | some a, some b => some (a * b)
  | _, _ => none

/-- Subtraction with non-finite absorption. -/
def vSub : Val → Val → Val
  | some a, some b => some (a - b)
  | _, _ => none

/-- The configuration fields of JEM.__init__ that the sampler reads. -/
structure JemCfg where
  uncond : Bool
  n_classes : ℕ
  sgld_batch_size : ℕ
  sgld_lr : ℤ
  sgld_std : ℤ
  reinit_freq : ℤ

/-- The scoring collaborator: a training-mode flag (model.train and
model.eval toggle it) and its parameters, abstracted to one scalar. -/
structure Model where
  training : Bool
  params : ℤ

/-- The mutable state a sample_q call touches: the scoring model and the
replay buffer (a flat list of samples, index = slot). -/
structure JemState where
  model : Model
  replay_buffer : List Sample

/-- The random draws consumed by one sampler call, supplied as streams:
indRaw feeds torch.randint (taken modulo the bound), unif feeds the
torch.rand reinitialization coin, fresh feeds init_random, and noise k
feeds the torch.randn_like draw of loop step k. -/
structure RandSrc where
  indRaw : List ℕ
  unif : List ℤ
  fresh : Batch
  noise : ℕ → Batch

/-- The gradient oracles standing for torch.autograd.grad of the scalar
energy with respect to x_k.  grad1 is the per-example gradient used by the
non-contrastive branch, where the energy is the sum of per-example scores;
gradJoint is the whole-batch gradient of the contrastive branch.  A none
result models a scoring or autograd call that raises. -/
structure Score where
  grad1 : ℤ → Option ℕ → Sample → Option Sample
  gradJoint : ℤ → Option (List ℕ) → Batch → Option Batch

/-- The errors the embedded code can raise: the divisibility assertion in
the constructor, the conditional-sampling assertion in sample_p_0, and a
raising scoring or gradient call inside the SGLD loop. -/
inductive JemError where
  | configAssert
  | uncondAssert
  | scoreError
deriving DecidableEq, Repr

/-- init_random(bs, shape): draws bs fresh random samples, embedded as
taking bs samples from the supplied fresh stream. -/
def init_random (bs : ℕ) (fresh : Batch) : Batch :=
  fresh.take bs

/-- The buffer construction fragment of JEM.__init__: when not uncond it
asserts that the buffer size is divisible by n_classes, then allocates the
buffer as init_random(buffer_size, data_shape). -/
def jemInit (uncond : Bool) (buffer_size n_classes : ℕ) (fresh : Batch) :
    Except JemError (List Sample) :=
  if uncond = false ∧ buffer_size % n_classes ≠ 0 then
    .error .configAssert
  else
    .ok (init_random buffer_size fresh)

/-- replay_buffer[inds]: reads the sample at each listed slot. -/
def bufRead (buf : List Sample) (inds : List ℕ) : Batch :=
  inds.map (fun i => buf.getD i [])

/-- replay_buffer[inds] = vals: tensor index assignment, one slot written
per index-value pair, left to right, so on a duplicated index the last
pair wins. -/
def bufWrite (buf : List Sample) (pairs : List (ℕ × Sample)) : List Sample :=
  pairs.foldl (fun b p => b.set p.1 p.2) buf

/-- choose_random * random + (1 - choose_random) * buffer, elementwise over
one sample, with the scalar choose_random broadcast over the elements. -/
def mixSample (c : Val) (rand buf : Sample) : Sample :=
  List.zipWith (fun r b => vAdd (vMul c r) (vMul (vSub (some 1) c) b)) rand buf

/-- The tail of sample_p_0 after the slot indices are fixed: read the
buffer at the indices, draw bs random samples and the Bernoulli
reinitialization coins, and mix. -/
def mixBatch (cfg : JemCfg) (bs : ℕ) (r : RandSrc) (buffer_samples : Batch) :
    Batch :=
  let random_samples := init_random bs r.fresh
  let choose_random : List Val :=
    (r.unif.take bs).map (fun u => if u < cfg.reinit_freq then some 1 else some 0)
  List.zipWith (fun c p => mixSample c p.1 p.2) choose_random
    (random_samples.zip buffer_samples)

/-- JEM.sample_p_0: with an empty buffer, return bs fresh samples and no
indices; otherwise draw bs slot indices uniformly (conditionally, an
offset into the label block, after asserting the model is conditional),
read the buffer there, and mix with fresh noise at rate reinit_freq. -/
def sample_p_0 (cfg : JemCfg) (replay_buffer : List Sample) (bs : ℕ)
    (y : Option (List ℕ)) (r : RandSrc) :
    Except JemError (Batch × List ℕ) :=
  if replay_buffer.length = 0 then
    .ok (init_random bs r.fresh, [])
  else
    match y with
    | none =>
      let buffer_size := replay_buffer.length
      let inds := (r.indRaw.take bs).map (fun v => v % buffer_size)
      .ok (mixBatch cfg bs r (bufRead replay_buffer inds), inds)
    | some ys =>
      if cfg.uncond then
        .error .uncondAssert
      else
        let buffer_size := replay_buffer.length / cfg.n_classes
        let inds0 := (r.indRaw.take bs).map (fun v => v % buffer_size)
        let inds := (ys.zip inds0).map (fun p => p.1 * buffer_size + p.2)
        .ok (mixBatch cfg bs r (bufRead replay_buffer inds), inds)

/-- bs = sgld_batch_size if y is None else y.size(0). -/
def bsOf (cfg : JemCfg) (y : Option (List ℕ)) : ℕ :=
  match y with
  | none => cfg.sgld_batch_size
  | some ys => ys.length

/-- x_k.data += sgld_lr * f_prime + sgld_std * noise, elementwise over one
sample. -/
def stepSample (lr std : ℤ) (x g n : Sample) : Sample :=
  List.zipWith
    (fun xi gn => vAdd xi (vAdd (vMul (some lr) gn.1) (vMul (some std) gn.2)))
    x (g.zip n)

/-- One SGLD position update over the whole batch. -/
def stepBatch (lr std : ℤ) (x g n : Batch) : Batch :=
  List.zipWith (fun xs gn => stepSample lr std xs gn.1 gn.2) x (g.zip n)

/-- The gradient of the summed non-contrastive energy with respect to the
positions: the per-example gradient mapped over the batch (zipped with the
labels when class-conditional); none when any scoring call raises. -/
def batchGrad (sc : Score) (p : ℤ) (y : Option (List ℕ)) (x : Batch) :
    Option Batch :=
  match y with
  | none => x.mapM (sc.grad1 p none)
  | some ys => (x.zip ys).mapM (fun q => sc.grad1 p (some q.2) q.1)

/-- The gradient actually taken in the loop body: the contrastive branch
differentiates the joint cross-entropy score, the plain branch the summed
energy. -/
def loopGrad (sc : Score) (contrast : Bool) (p : ℤ) (y : Option (List ℕ))
    (x : Batch) : Option Batch :=
  if contrast then sc.gradJoint p y x else batchGrad sc p y x

/-- The positions after k iterations of the SGLD loop of sample_q, started
from x0; step k consumes the noise draw r.noise k.  none once any scoring
or gradient call has raised. -/
def sgldIter (cfg : JemCfg) (sc : Score) (contrast : Bool) (p : ℤ)
    (y : Option (List ℕ)) (r : RandSrc) (x0 : Batch) : ℕ → Option Batch
  | 0 => some x0
  | k + 1 =>
    (sgldIter cfg sc contrast p y r x0 k).bind fun x =>
      (loopGrad sc contrast p y x).map fun g =>
        stepBatch cfg.sgld_lr cfg.sgld_std x g (r.noise k)

/-- What a sample_q call leaves behind: the returned batch or the raised
error, the post-call model and buffer, and the slot indices the call drew
(empty when it raised before drawing them). -/
structure QOut where
  result : Except JemError Batch
  state : JemState
  inds : List ℕ

/-- JEM.sample_q: switch the model to evaluation mode, draw the initial
batch and slot indices with sample_p_0, run n_steps SGLD updates, switch
the model back to training mode, detach, and if the buffer is non-empty
overwrite the drawn slots with the final batch.  An exception from the
sample_p_0 assertion or from a scoring call inside the loop propagates
before model.train() and before the buffer write run, leaving the model in
evaluation mode and the buffer untouched. -/
def sample_q (cfg : JemCfg) (sc : Score) (st : JemState)
    (y : Option (List ℕ)) (n_steps : ℕ) (contrast : Bool) (r : RandSrc) :
    QOut :=
  let modelEval : Model := { st.model with training := false }
  let bs := bsOf cfg y
  match sample_p_0 cfg st.replay_buffer bs y r with
  | .error e => ⟨.error e, ⟨modelEval, st.replay_buffer⟩, []⟩
  | .ok (init_sample, buffer_inds) =>
    match sgldIter cfg sc contrast st.model.params y r init_sample n_steps with
    | none => ⟨.error .scoreError, ⟨modelEval, st.replay_buffer⟩, buffer_inds⟩
    | some final_samples =>
      let modelTrain : Model := { st.model with training := true }
      let buf :=
        if 0 < st.replay_buffer.length then
          bufWrite st.replay_buffer (buffer_inds.zip final_samples)
        else
          st.replay_buffer
      ⟨.ok final_samples, ⟨modelTrain, buf⟩, buffer_inds⟩

/-! Concrete fixtures used by witnesses and counterexamples. -/

/-- An unconditional configuration with SGLD batch size two, unit step
size and noise scale, and reinitialization probability zero. -/
def cfgU : JemCfg := ⟨true, 1, 2, 1, 1, 0⟩

/-- An unconditional configuration with SGLD batch size one. -/
def cfgU1 : JemCfg := ⟨true, 1, 1, 1, 1, 0⟩

/-- A class-conditional configuration with two classes. -/
def cfgCond : JemCfg := ⟨false, 2, 1, 1, 1, 0⟩

/-- A scoring oracle with zero gradients everywhere. -/
def zeroScore : Score :=
  ⟨fun _ _ x => some (x.map fun _ => some 0),
   fun _ _ x => some (x.map fun s => s.map fun _ => some 0)⟩

/-- A scoring oracle whose calls always raise. -/
def failScore : Score := ⟨fun _ _ _ => none, fun _ _ _ => none⟩

/-- A scoring oracle whose gradient is non-finite, as autograd yields after
the energy evaluates to Inf. -/
def infScore : Score :=
  ⟨fun _ _ x => some (x.map fun _ => none),
   fun _ _ x => some (x.map fun s => s.map fun _ => none)⟩

/-- A one-slot buffer holding the sample [0]. -/
def bufOne : List Sample := [[some 0]]

/-- A four-slot buffer of zero samples, for the two-class fixture. -/
def bufFour : List Sample := [[some 0], [some 0], [some 0], [some 0]]

/-- A model in training mode over the one-slot buffer. -/
def stTrainOne : JemState := ⟨⟨true, 0⟩, bufOne⟩

/-- A model in evaluation mode over the one-slot buffer. -/
def stEvalOne : JemState := ⟨⟨false, 0⟩, bufOne⟩

/-- A model in training mode over an empty (replay-disabled) buffer. -/
def stTrainEmpty : JemState := ⟨⟨true, 0⟩, []⟩

/-- Random draws for batch-size-two runs: both slot draws hit slot zero,
no reinitialization, and step noise [1] and [2] on the two chains. -/
def rndTwo : RandSrc :=
  ⟨[0, 0], [1, 1], [[some 5], [some 5]], fun _ => [[some 1], [some 2]]⟩

/-- Random draws for batch-size-one runs with step noise [3]. -/
def rndOne : RandSrc := ⟨[0], [1], [[some 5]], fun _ => [[some 3]]⟩

/-- Random draws for the class-conditional fixture. -/
def rndCond : RandSrc := ⟨[0], [1], [[some 9]], fun _ => [[some 0]]⟩

/-- The initial batch the batch-size-two fixtures produce. -/
def x0Two : Batch := [[some 0], [some 0]]

/-- The zero gradient batch for the batch-size-two fixtures. -/
def gZeroTwo : Batch := [[some 0], [some 0]]

/-! Helper lemmas about the buffer write-back. -/

/-- Writing slots never changes the buffer length. -/
theorem bufWrite_length (pairs : List (ℕ × Sample)) (buf : List Sample) :
    (bufWrite buf pairs).length = buf.length := by
  induction pairs generalizing buf with
  | nil => rfl
  | cons p ps ih =>
    show (bufWrite (buf.set p.1 p.2) ps).length = buf.length
    rw [ih, List.length_set]

/-- A slot whose index is written by no pair keeps its value. -/
theorem bufWrite_getD_of_not_mem (pairs : List (ℕ × Sample))
    (buf : List Sample) (j : ℕ) (h : ∀ p ∈ pairs, p.1 ≠ j) :
    (bufWrite buf pairs).getD j [] = buf.getD j [] := by
  induction pairs generalizing buf with
  | nil => rfl
  | cons p ps ih =>
    show (bufWrite (buf.set p.1 p.2) ps).getD j [] = buf.getD j []
    rw [ih _ (fun q hq => h q (List.mem_cons_of_mem _ hq))]
    rw [List.getD_eq_getElem?_getD, List.getD_eq_getElem?_getD,
      List.getElem?_set_ne (h p (List.mem_cons_self _ _))]

/-- Reading back pairwise-distinct written slots returns the written
values. -/
theorem bufWrite_read_nodup (inds : List ℕ) (vals : Batch)
    (buf : List Sample) (hnd : inds.Nodup) (hlen : inds.length = vals.length)
    (hlt : ∀ i ∈ inds, i < buf.length) :
    bufRead (bufWrite buf (inds.zip vals)) inds = vals := by
  induction inds generalizing vals buf with
  | nil =>
    cases vals with
    | nil => rfl
    | cons v vs => simp at hlen
  | cons i is ih =>
    cases vals with
    | nil => simp at hlen
    | cons v vs =>
      have hnd2 := List.nodup_cons.mp hnd
      have hhead : (bufWrite (buf.set i v) (is.zip vs)).getD i [] = v := by
        rw [bufWrite_getD_of_not_mem]
        · rw [List.getD_eq_getElem?_getD,
            List.getElem?_set_eq_of_lt v (hlt i (List.mem_cons_self i is))]
          rfl
        · intro p hp e
          exact hnd2.1 (e ▸ (List.of_mem_zip hp).1)
      have hlen2 : is.length = vs.length := by
        simp only [List.length_cons] at hlen
        omega
      have htail : bufRead (bufWrite (buf.set i v) (is.zip vs)) is = vs := by
        refine ih vs (buf.set i v) hnd2.2 hlen2 ?_
        intro k hk
        rw [List.length_set]
        exact hlt k (List.mem_cons_of_mem _ hk)
      show (bufWrite (buf.set i v) (is.zip vs)).getD i []
          :: bufRead (bufWrite (buf.set i v) (is.zip vs)) is = v :: vs
      rw [hhead, htail]

/-- Block arithmetic of the conditional index computation: an index of the
form label times blocksize plus an in-block offset lies in the block of
its label, position for position along the zipped lists. -/
theorem zip_block_div (bsz : ℕ) (hb : 0 < bsz) :
    ∀ (ys rs : List ℕ), (∀ i ∈ rs, i < bsz) →
      ∀ p ∈ ((ys.zip rs).map (fun q => q.1 * bsz + q.2)).zip ys,
        p.1 / bsz = p.2 := by
  intro ys
  induction ys with
  | nil =>
    intro rs _ p hp
    simp at hp
  | cons l ls ih =>
    intro rs hrs p hp
    cases rs with
    | nil => simp at hp
    | cons i is =>
      rcases List.mem_cons.mp hp with hp | hp
      · subst hp
        show (l * bsz + i) / bsz = l
        have hi : i < bsz := hrs i (List.mem_cons_self i is)
        rw [Nat.add_comm, Nat.mul_comm, Nat.add_mul_div_left i l hb,
          Nat.div_eq_of_lt hi, Nat.zero_add]
      · exact ih is (fun k hk => hrs k (List.mem_cons_of_mem _ hk)) p hp

/-- Unfolding sample_q once sample_p_0 has returned an initial batch. -/
theorem sample_q_of_p0_ok (cfg : JemCfg) (sc : Score) (st : JemState)
    (y : Option (List ℕ)) (n_steps : ℕ) (contrast : Bool) (r : RandSrc)
    (init : Batch) (inds : List ℕ)
    (hp0 : sample_p_0 cfg st.replay_buffer (bsOf cfg y) y r =
      .ok (init, inds)) :
    sample_q cfg sc st y n_steps contrast r =
      match sgldIter cfg sc contrast st.model.params y r init n_steps with
      | none => ⟨.error .scoreError,
          ⟨{ st.model with training := false }, st.replay_buffer⟩, inds⟩
      | some fin => ⟨.ok fin,
          ⟨{ st.model with training := true },
            if 0 < st.replay_buffer.length then
              bufWrite st.replay_buffer (inds.zip fin)
            else st.replay_buffer⟩, inds⟩ := by
  simp only [sample_q]
  rw [hp0]

/-- Unfolding sample_q when sample_p_0 raised. -/
theorem sample_q_of_p0_error (cfg : JemCfg) (sc : Score) (st : JemState)
    (y : Option (List ℕ)) (n_steps : ℕ) (contrast : Bool) (r : RandSrc)
    (e : JemError)
    (hp0 : sample_p_0 cfg st.replay_buffer (bsOf cfg y) y r = .error e) :
    sample_q cfg sc st y n_steps contrast r =
      ⟨.error e, ⟨{ st.model with training := false }, st.replay_buffer⟩,
        []⟩ := by
  simp only [sample_q]
  rw [hp0]

/-! Claim theorems. -/

/-- Claim C1: every slot index returned by a class-conditional sample_p_0
call lies in the contiguous buffer block of its requested label: paired
with its label, the index divided by the block size, buffer length over
class count, equals the label. -/
theorem sample_p_0_class_partition (cfg : JemCfg) (buf : List Sample)
    (bs : ℕ) (ys : List ℕ) (r : RandSrc) (samples : Batch) (inds : List ℕ)
    (hne : ¬ buf.length = 0) (hu : cfg.uncond = false)
    (hk : 0 < cfg.n_classes) (hdvd : cfg.n_classes ∣ buf.length)
    (hok : sample_p_0 cfg buf bs (some ys) r = .ok (samples, inds)) :
    ∀ p ∈ inds.zip ys, p.1 / (buf.length / cfg.n_classes) = p.2 := by
  have hb : 0 < buf.length / cfg.n_classes :=
    Nat.div_pos (Nat.le_of_dvd (Nat.pos_of_ne_zero hne) hdvd) hk
  simp only [sample_p_0, if_neg hne, hu, Bool.false_eq_true, if_false,
    Except.ok.injEq, Prod.mk.injEq] at hok
  obtain ⟨hs, hi⟩ := hok
  subst hi
  apply zip_block_div _ hb
  intro i hi
  obtain ⟨v, hv, rfl⟩ := List.mem_map.mp hi
  exact Nat.mod_lt _ hb

/-- Witness for C1: in the two-class four-slot fixture, the index drawn
for label one is two, which lies in the block of label one. -/
theorem sample_p_0_class_partition_witness :
    (2 : ℕ) / (bufFour.length / cfgCond.n_classes) = 1 :=
  sample_p_0_class_partition cfgCond bufFour 1 [1] rndCond _ [2]
    (by decide) rfl (by decide) (by decide) rfl (2, 1) (by decide)

/-- Claim C6: with the class count set (class-conditional mode, uncond
false), buffer construction succeeds exactly when the class count evenly
divides the capacity, and raises the configuration assertion when it does
not. -/
theorem jemInit_config_divisibility (uncond : Bool)
    (buffer_size n_classes : ℕ) (fresh : Batch) (h : uncond = false) :
    ((∃ buf, jemInit uncond buffer_size n_classes fresh = .ok buf) ↔
      n_classes ∣ buffer_size) ∧
    (¬ n_classes ∣ buffer_size →
      jemInit uncond buffer_size n_classes fresh = .error .configAssert) := by
  subst h
  constructor
  · constructor
    · rintro ⟨buf, hbuf⟩
      by_contra hnd
      have hmod : buffer_size % n_classes ≠ 0 :=
        fun e => hnd (Nat.dvd_iff_mod_eq_zero.mpr e)
      simp [jemInit, hmod] at hbuf
    · intro hd
      have hmod : buffer_size % n_classes = 0 :=
        Nat.dvd_iff_mod_eq_zero.mp hd
      exact ⟨init_random buffer_size fresh, by simp [jemInit, hmod]⟩
  · intro hnd
    have hmod : buffer_size % n_classes ≠ 0 :=
      fun e => hnd (Nat.dvd_iff_mod_eq_zero.mpr e)
    simp [jemInit, hmod]

/-- Witness for C6: a class-conditional construction with capacity three
and two classes raises the configuration assertion. -/
theorem jemInit_config_divisibility_witness :
    jemInit false 3 2 [] = .error .configAssert :=
  (jemInit_config_divisibility false 3 2 [] rfl).2 (by decide)

/-- Counterexample for C5: a call that starts with the model in evaluation
mode and returns normally leaves it in training mode, so the
evaluation-mode flag after the call differs from its pre-call value. -/
theorem sample_q_mode_not_restored_cx :
    stEvalOne.model.training = false ∧
    (sample_q cfgU zeroScore stEvalOne none 1 false rndTwo).result =
      .ok [[some 1], [some 2]] ∧
    (sample_q cfgU zeroScore stEvalOne none 1 false rndTwo).state.model.training = true :=
  ⟨rfl, rfl, rfl⟩

/-- Amended claim C5: the model is switched to evaluation mode for the
loop, but a normally returning call leaves it unconditionally in training
mode rather than restoring the pre-call mode. -/
theorem sample_q_train_after_ok (cfg : JemCfg) (sc : Score) (st : JemState)
    (y : Option (List ℕ)) (n : ℕ) (c : Bool) (r : RandSrc) (fin : Batch)
    (hok : (sample_q cfg sc st y n c r).result = .ok fin) :
    (sample_q cfg sc st y n c r).state.model.training = true := by
  cases hp0 : sample_p_0 cfg st.replay_buffer (bsOf cfg y) y r with
  | error e =>
    rw [sample_q_of_p0_error cfg sc st y n c r e hp0] at hok
    simp at hok
  | ok p =>
    obtain ⟨init, inds⟩ := p
    rw [sample_q_of_p0_ok cfg sc st y n c r init inds hp0] at hok ⊢
    cases hit : sgldIter cfg sc c st.model.params y r init n with
    | none =>
      rw [hit] at hok
      simp at hok
    | some f2 =>
      rfl

/-- Witness for the amended C5: the batch-size-two fixture returns
normally and leaves the model in training mode. -/
theorem sample_q_train_after_ok_witness :
    (sample_q cfgU zeroScore stTrainOne none 1 false rndTwo).state.model.training = true :=
  sample_q_train_after_ok cfgU zeroScore stTrainOne none 1 false rndTwo
    [[some 1], [some 2]] rfl

/-- Claim C9: a sample_q call that returns normally leaves the scoring
model in training mode, whatever mode it started in, and a call that
raises, from the conditional-sampling assertion or from a scoring call
inside the loop, leaves it in evaluation mode. -/
theorem sample_q_mode_exit_paths (cfg : JemCfg) (sc : Score)
    (st : JemState) (y : Option (List ℕ)) (n : ℕ) (c : Bool) (r : RandSrc) :
    (∀ fin, (sample_q cfg sc st y n c r).result = .ok fin →
      (sample_q cfg sc st y n c r).state.model.training = true) ∧
    (∀ e, (sample_q cfg sc st y n c r).result = .error e →
      (sample_q cfg sc st y n c r).state.model.training = false) := by
  cases hp0 : sample_p_0 cfg st.replay_buffer (bsOf cfg y) y r with
  | error e =>
    rw [sample_q_of_p0_error cfg sc st y n c r e hp0]
    refine ⟨?_, ?_⟩
    · intro fin hf
      simp at hf
    · intro e2 he
      rfl
  | ok p =>
    obtain ⟨init, inds⟩ := p
    rw [sample_q_of_p0_ok cfg sc st y n c r init inds hp0]
    cases hit : sgldIter cfg sc c st.model.params y r init n with
    | none =>
      refine ⟨?_, ?_⟩
      · intro fin hf
        simp at hf
      · intro e2 he
        rfl
    | some fin =>
      refine ⟨?_, ?_⟩
      · intro f2 hf
        rfl
      · intro e2 he
        simp at he

/-- Witness for C9: a normally returning fixture run ends in training
mode, and a run whose scoring oracle raises ends in evaluation mode. -/
theorem sample_q_mode_exit_paths_witness :
    (sample_q cfgU zeroScore stTrainOne none 1 false rndTwo).state.model.training = true ∧
    (sample_q cfgU failScore stTrainOne none 1 false rndTwo).state.model.training = false :=
  ⟨(sample_q_mode_exit_paths cfgU zeroScore stTrainOne none 1 false
      rndTwo).1 [[some 1], [some 2]] rfl,
   (sample_q_mode_exit_paths cfgU failScore stTrainOne none 1 false
      rndTwo).2 .scoreError rfl⟩

/-- Claim C8: a sampling call with step count zero returns the initial
batch unchanged. -/
theorem sample_q_zero_steps_id (cfg : JemCfg) (sc : Score) (st : JemState)
    (y : Option (List ℕ)) (c : Bool) (r : RandSrc) (init : Batch)
    (inds : List ℕ)
    (hp0 : sample_p_0 cfg st.replay_buffer (bsOf cfg y) y r =
      .ok (init, inds)) :
    (sample_q cfg sc st y 0 c r).result = .ok init := by
  rw [sample_q_of_p0_ok cfg sc st y 0 c r init inds hp0]
  rfl

/-- Witness for C8: the zero-step fixture run returns its initial batch. -/
theorem sample_q_zero_steps_id_witness :
    (sample_q cfgU zeroScore stTrainOne none 0 false rndTwo).result =
      .ok x0Two :=
  sample_q_zero_steps_id cfgU zeroScore stTrainOne none false rndTwo
    x0Two [0, 0] rfl

/-- Claim C7: with a zero-capacity buffer, sample_p_0 returns bs freshly
drawn samples and no slot indices, and sample_q leaves the buffer exactly
as it was: the update step is a no-op. -/
theorem sample_q_empty_buffer_noop (cfg : JemCfg) (sc : Score)
    (st : JemState) (y : Option (List ℕ)) (n : ℕ) (c : Bool) (r : RandSrc)
    (h : st.replay_buffer = []) :
    sample_p_0 cfg st.replay_buffer (bsOf cfg y) y r =
      .ok (init_random (bsOf cfg y) r.fresh, []) ∧
    (sample_q cfg sc st y n c r).inds = [] ∧
    (sample_q cfg sc st y n c r).state.replay_buffer = st.replay_buffer := by
  have hp0 : sample_p_0 cfg st.replay_buffer (bsOf cfg y) y r =
      .ok (init_random (bsOf cfg y) r.fresh, []) := by
    rw [h]
    rfl
  refine ⟨hp0, ?_, ?_⟩
  · rw [sample_q_of_p0_ok cfg sc st y n c r _ _ hp0]
    cases hit : sgldIter cfg sc c st.model.params y r
        (init_random (bsOf cfg y) r.fresh) n <;> rfl
  · rw [sample_q_of_p0_ok cfg sc st y n c r _ _ hp0]
    cases hit : sgldIter cfg sc c st.model.params y r
        (init_random (bsOf cfg y) r.fresh) n with
    | none => rfl
    | some fin =>
      show (if 0 < st.replay_buffer.length then
          bufWrite st.replay_buffer (List.zip [] fin)
        else st.replay_buffer) = st.replay_buffer
      rw [h]
      rfl

/-- Witness for C7: the empty-buffer fixture returns two fresh samples, no
indices, and an unchanged empty buffer. -/
theorem sample_q_empty_buffer_noop_witness :
    sample_p_0 cfgU stTrainEmpty.replay_buffer (bsOf cfgU none) none
      rndTwo = .ok (init_random (bsOf cfgU none) rndTwo.fresh, []) ∧
    (sample_q cfgU zeroScore stTrainEmpty none 1 false rndTwo).inds = [] ∧
    (sample_q cfgU zeroScore stTrainEmpty none 1 false rndTwo).state.replay_buffer = stTrainEmpty.replay_buffer :=
  sample_q_empty_buffer_noop cfgU zeroScore stTrainEmpty none 1 false
    rndTwo rfl

/-- Claim C2: each loop iteration updates the positions elementwise by
position plus step size times the gradient of the summed score plus noise
scale times the fresh per-step Gaussian draw; the loop runs exactly
n_steps times to produce the returned batch; and the model parameters are
untouched by the call. -/
theorem sample_q_update_rule (cfg : JemCfg) (sc : Score) (st : JemState)
    (y : Option (List ℕ)) (n : ℕ) (r : RandSrc) (k : ℕ)
    (x0 x g : Batch) (inds : List ℕ)
    (hp0 : sample_p_0 cfg st.replay_buffer (bsOf cfg y) y r =
      .ok (x0, inds))
    (hiter : sgldIter cfg sc false st.model.params y r x0 k = some x)
    (hgrad : batchGrad sc st.model.params y x = some g) :
    sgldIter cfg sc false st.model.params y r x0 (k + 1) =
      some (stepBatch cfg.sgld_lr cfg.sgld_std x g (r.noise k)) ∧
    (sample_q cfg sc st y n false r).state.model.params =
      st.model.params ∧
    ∀ fin, (sample_q cfg sc st y n false r).result = .ok fin →
      sgldIter cfg sc false st.model.params y r x0 n = some fin := by
  have hlg : loopGrad sc false st.model.params y x = some g := hgrad
  refine ⟨?_, ?_, ?_⟩
  · show (sgldIter cfg sc false st.model.params y r x0 k).bind
        (fun xx => (loopGrad sc false st.model.params y xx).map
          (fun gg => stepBatch cfg.sgld_lr cfg.sgld_std xx gg
            (r.noise k))) =
      some (stepBatch cfg.sgld_lr cfg.sgld_std x g (r.noise k))
    rw [hiter]
    show (loopGrad sc false st.model.params y x).map
        (fun gg => stepBatch cfg.sgld_lr cfg.sgld_std x gg (r.noise k)) = _
    rw [hlg]
    rfl
  · rw [sample_q_of_p0_ok cfg sc st y n false r x0 inds hp0]
    cases hit : sgldIter cfg sc false st.model.params y r x0 n <;> rfl
  · intro fin hf
    rw [sample_q_of_p0_ok cfg sc st y n false r x0 inds hp0] at hf
    cases hit : sgldIter cfg sc false st.model.params y r x0 n with
    | none =>
      rw [hit] at hf
      simp at hf
    | some f2 =>
      rw [hit] at hf
      simp at hf
      exact congrArg some hf

/-- Witness for C2: in the batch-size-two fixture, step one is the
elementwise update of the initial batch, and the parameters survive the
call. -/
theorem sample_q_update_rule_witness :
    sgldIter cfgU zeroScore false stTrainOne.model.params none rndTwo
      x0Two 1 =
      some (stepBatch cfgU.sgld_lr cfgU.sgld_std x0Two gZeroTwo
        (rndTwo.noise 0)) ∧
    (sample_q cfgU zeroScore stTrainOne none 1 false rndTwo).state.model.params = stTrainOne.model.params :=
  ⟨(sample_q_update_rule cfgU zeroScore stTrainOne none 1 rndTwo 0 x0Two
      x0Two gZeroTwo [0, 0] rfl rfl rfl).1,
   (sample_q_update_rule cfgU zeroScore stTrainOne none 1 rndTwo 0 x0Two
      x0Two gZeroTwo [0, 0] rfl rfl rfl).2.1⟩

/-- Counterexample for C3: with duplicate drawn indices, [0, 0], the
returned batch is [[1], [2]] but reading the buffer back at the drawn
indices yields [[2], [2]], because the last write to slot zero wins. -/
theorem sample_q_duplicate_inds_cx :
    (sample_q cfgU zeroScore stTrainOne none 1 false rndTwo).result =
      .ok [[some 1], [some 2]] ∧
    (sample_q cfgU zeroScore stTrainOne none 1 false rndTwo).inds =
      [0, 0] ∧
    bufRead (sample_q cfgU zeroScore stTrainOne none 1 false rndTwo).state.replay_buffer [0, 0] = [[some 2], [some 2]] ∧
    ([[some 2], [some 2]] : Batch) ≠ [[some 1], [some 2]] :=
  ⟨rfl, rfl, rfl, by decide⟩

/-- Amended claim C3: after a sample_q call with replay enabled, reading
the buffer at the drawn slot indices yields exactly the returned final
batch whenever the drawn indices are pairwise distinct; a duplicated index
instead holds the value of the last position that drew it. -/
theorem sample_q_roundtrip_nodup (cfg : JemCfg) (sc : Score)
    (st : JemState) (y : Option (List ℕ)) (n : ℕ) (c : Bool) (r : RandSrc)
    (fin : Batch)
    (hok : (sample_q cfg sc st y n c r).result = .ok fin)
    (hnd : (sample_q cfg sc st y n c r).inds.Nodup)
    (hlen : (sample_q cfg sc st y n c r).inds.length = fin.length)
    (hlt : ∀ i ∈ (sample_q cfg sc st y n c r).inds,
      i < st.replay_buffer.length)
    (hb : 0 < st.replay_buffer.length) :
    bufRead (sample_q cfg sc st y n c r).state.replay_buffer
      (sample_q cfg sc st y n c r).inds = fin := by
  cases hp0 : sample_p_0 cfg st.replay_buffer (bsOf cfg y) y r with
  | error e =>
    rw [sample_q_of_p0_error cfg sc st y n c r e hp0] at hok
    simp at hok
  | ok p =>
    obtain ⟨init, inds⟩ := p
    rw [sample_q_of_p0_ok cfg sc st y n c r init inds hp0] at hok hnd hlen hlt ⊢
    cases hit : sgldIter cfg sc c st.model.params y r init n with
    | none =>
      rw [hit] at hok
      simp at hok
    | some f2 =>
      rw [hit] at hok hnd hlen hlt
      have hf : f2 = fin := by simpa using hok
      subst hf
      show bufRead (if 0 < st.replay_buffer.length then
          bufWrite st.replay_buffer (inds.zip f2)
        else st.replay_buffer) inds = f2
      rw [if_pos hb]
      exact bufWrite_read_nodup inds f2 st.replay_buffer hnd hlen hlt

/-- Witness for the amended C3: a single-chain fixture draws the distinct
index list [0] and reading the buffer back at it returns the final
batch. -/
theorem sample_q_roundtrip_nodup_witness :
    bufRead (sample_q cfgU1 zeroScore stTrainOne none 1 false rndOne).state.replay_buffer (sample_q cfgU1 zeroScore stTrainOne none 1 false rndOne).inds = [[some 3]] :=
  sample_q_roundtrip_nodup cfgU1 zeroScore stTrainOne none 1 false rndOne
    [[some 3]] rfl (by decide) rfl (by decide) (by decide)

/-- Counterexample for C4: a scoring oracle whose gradient is non-finite
drives the positions non-finite, yet the call returns normally, raising no
divergence error, and the poisoned batch is written into the buffer. -/
theorem sample_q_divergence_written_cx :
    (sample_q cfgU1 infScore stTrainOne none 1 false rndOne).result =
      .ok [[none]] ∧
    (sample_q cfgU1 infScore stTrainOne none 1 false rndOne).state.replay_buffer = [[none]] ∧
    stTrainOne.replay_buffer = [[some 0]] :=
  ⟨rfl, rfl, rfl⟩

/-- Amended claim C4: the sampler performs no finiteness check and defines
no divergence error: whenever every scoring call in the loop returns, the
call completes normally and, with a non-empty buffer, writes the final
batch into the drawn slots, finite or not. -/
theorem sample_q_no_divergence_check (cfg : JemCfg) (sc : Score)
    (st : JemState) (y : Option (List ℕ)) (n : ℕ) (c : Bool) (r : RandSrc)
    (x0 fin : Batch) (inds : List ℕ)
    (hp0 : sample_p_0 cfg st.replay_buffer (bsOf cfg y) y r =
      .ok (x0, inds))
    (hiter : sgldIter cfg sc c st.model.params y r x0 n = some fin) :
    (sample_q cfg sc st y n c r).result = .ok fin ∧
    (sample_q cfg sc st y n c r).state.replay_buffer =
      (if 0 < st.replay_buffer.length then
        bufWrite st.replay_buffer (inds.zip fin)
      else st.replay_buffer) := by
  rw [sample_q_of_p0_ok cfg sc st y n c r x0 inds hp0, hiter]
  exact ⟨rfl, rfl⟩

/-- Witness for the amended C4: the non-finite-gradient fixture returns
normally and its buffer write happens. -/
theorem sample_q_no_divergence_check_witness :
    (sample_q cfgU1 infScore stTrainOne none 1 false rndOne).result =
      .ok [[none]] ∧
    (sample_q cfgU1 infScore stTrainOne none 1 false rndOne).state.replay_buffer =
      (if 0 < stTrainOne.replay_buffer.length then
        bufWrite stTrainOne.replay_buffer ([0].zip [[none]])
      else stTrainOne.replay_buffer) :=
  sample_q_no_divergence_check cfgU1 infScore stTrainOne none 1 false
    rndOne [[some 0]] [[none]] [0] rfl rfl

/-- Claim C10: a sample_q call never changes the buffer length, and every
slot whose index is not among the drawn indices holds exactly its
pre-call value. -/
theorem sample_q_frame (cfg : JemCfg) (sc : Score) (st : JemState)
    (y : Option (List ℕ)) (n : ℕ) (c : Bool) (r : RandSrc) :
    (sample_q cfg sc st y n c r).state.replay_buffer.length =
      st.replay_buffer.length ∧
    ∀ j, j ∉ (sample_q cfg sc st y n c r).inds →
      (sample_q cfg sc st y n c r).state.replay_buffer.getD j [] =
        st.replay_buffer.getD j [] := by
  cases hp0 : sample_p_0 cfg st.replay_buffer (bsOf cfg y) y r with
  | error e =>
    rw [sample_q_of_p0_error cfg sc st y n c r e hp0]
    exact ⟨rfl, fun j hj => rfl⟩
  | ok p =>
    obtain ⟨init, inds⟩ := p
    rw [sample_q_of_p0_ok cfg sc st y n c r init inds hp0]
    cases hit : sgldIter cfg sc c st.model.params y r init n with
    | none => exact ⟨rfl, fun j hj => rfl⟩
    | some fin =>
      by_cases hb : 0 < st.replay_buffer.length
      · constructor
        · show (if 0 < st.replay_buffer.length then
              bufWrite st.replay_buffer (inds.zip fin)
            else st.replay_buffer).length = st.replay_buffer.length
          rw [if_pos hb]
          exact bufWrite_length _ _
        · intro j hj
          show (if 0 < st.replay_buffer.length then
              bufWrite st.replay_buffer (inds.zip fin)
            else st.replay_buffer).getD j [] = st.replay_buffer.getD j []
          rw [if_pos hb]
          refine bufWrite_getD_of_not_mem _ _ _ ?_
          intro p hp e
          exact hj (e ▸ (List.of_mem_zip hp).1)
      · constructor
        · show (if 0 < st.replay_buffer.length then
              bufWrite st.replay_buffer (inds.zip fin)
            else st.replay_buffer).length = st.replay_buffer.length
          rw [if_neg hb]
        · intro j hj
          show (if 0 < st.replay_buffer.length then
              bufWrite st.replay_buffer (inds.zip fin)
            else st.replay_buffer).getD j [] = st.replay_buffer.getD j []
          rw [if_neg hb]

/-- Witness for C10: in the batch-size-two fixture the buffer keeps its
length, and the undrawn slot index five keeps its value. -/
theorem sample_q_frame_witness :
    (sample_q cfgU zeroScore stTrainOne none 1 false rndTwo).state.replay_buffer.length = stTrainOne.replay_buffer.length ∧
    (sample_q cfgU zeroScore stTrainOne none 1 false rndTwo).state.replay_buffer.getD 5 [] = stTrainOne.replay_buffer.getD 5 [] :=
  ⟨(sample_q_frame cfgU zeroScore stTrainOne none 1 false rndTwo).1,
   (sample_q_frame cfgU zeroScore stTrainOne none 1 false rndTwo).2 5
     (by decide)⟩

end EBMOOD
